import Mathlib

/-!
Shallow embedding of the matrix-org/smallifier link shortener
(package smallifier: CreateHandler, LookupHandler, generateShortPath,
the follow-recording worker started by New, and the error counters).

Go strings are modelled as lists of characters (Go indexes and slices
strings by byte; every string manipulated here is ASCII, where bytes
and characters coincide).  The SQL link store is modelled as the list
of rows of the links table; the UNIQUE constraint on
links.short_path declared by CreateTables is modelled by insertLink
rejecting a duplicate short_path instead of appending it.  The
follows channel is modelled as a queue (list) of pending follow
events; the background worker started by New processes the head of
the queue one event per step.  Nondeterminism of the environment
(crypto/rand results, non-uniqueness storage errors) is passed in
explicitly as oracle arguments.  The uint64 error counters are
modelled as Nat: they are increment-only and every property of
interest is far below 2^53, where the float64 conversion performed
by the metric getters is exact and uint64 cannot have wrapped.
-/

/-- Go string, as its list of characters (ASCII throughout). -/
abbrev GoStr := List Char

/-- Coerce a Lean string literal to the Go string model. -/
def str (s : String) : GoStr := s.toList

/-- Row of the links table: CREATE TABLE links(short_path TEXT NOT NULL UNIQUE,
long_url, create_ts, create_ip, create_forwarded_for) from CreateTables. -/
structure Link where
  short_path : GoStr
  long_url : GoStr
  create_ts : Int
  create_ip : GoStr
  create_forwarded_for : GoStr
deriving DecidableEq, Repr

/-- The follow struct: one visit event (also the row shape of the follows table). -/
structure Follow where
  shortPath : GoStr
  timestamp : Int
  ip : GoStr
  forwardedFor : GoStr
deriving DecidableEq, Repr

/-- The base url.URL: path is base.Path, full is base.String(). -/
structure BaseURL where
  path : GoStr
  full : GoStr
deriving DecidableEq, Repr

/-- The smallifier struct plus the store it owns: links and follows tables,
the follows channel contents, and the three atomic counters. -/
structure Smallifier where
  base : BaseURL
  secret : GoStr
  links : List Link
  followsTable : List Follow
  follows : List Follow
  pendingFollows : Int
  randomErrorCount : Nat
  authErrorCount : Nat
  dbUpdateErrorCount : Nat
deriving DecidableEq, Repr

/-- The JSON-decoded Request body: long_url and secret. -/
structure Request where
  long_url : GoStr
  secret : GoStr
deriving DecidableEq, Repr

/-- An HTTP response as observed by the client: status code, Location
header if set, and the bytes written to the body. -/
structure HttpResponse where
  status : Nat
  location : Option GoStr
  body : GoStr
deriving DecidableEq, Repr

/-- The alphabet of base64.RawURLEncoding (RFC 4648 URL-safe, unpadded). -/
def base64URLChars : GoStr :=
  str "ABCDEFGHIJKLMNOPQRSTUVWXYZabcdefghijklmnopqrstuvwxyz0123456789-_"

/-- Character of the URL-safe base64 alphabet at index n (n < 64). -/
def b64c (n : Nat) : Char := base64URLChars.getD n 'A'

/-- base64.RawURLEncoding.EncodeToString on a byte list (each byte < 256):
3-byte groups become 4 alphabet characters, trailing groups are unpadded. -/
def base64RawURLEncode : List Nat → GoStr
  | b0 :: b1 :: b2 :: rest =>
      b64c (b0 / 4) :: b64c (b0 % 4 * 16 + b1 / 16) ::
      b64c (b1 % 16 * 4 + b2 / 64) :: b64c (b2 % 64) :: base64RawURLEncode rest
  | [b0, b1] => [b64c (b0 / 4), b64c (b0 % 4 * 16 + b1 / 16), b64c (b1 % 16 * 4)]
  | [b0] => [b64c (b0 / 4), b64c (b0 % 4 * 16)]
  | [] => []

/-- Link Store insert honouring the UNIQUE constraint on short_path
(CreateTables): a row whose short_path is already present is rejected
(none) and the table is left unchanged; otherwise the row is appended. -/
def insertLink (links : List Link) (l : Link) : Option (List Link) :=
  if links.any (fun x => x.short_path == l.short_path) then none
  else some (links ++ [l])

/-- Environment oracle for one iteration of the generateShortPath loop:
rand is the outcome of crypto/rand.Read (none means the read failed,
some bytes are the 6 bytes drawn), and dbOtherError tells whether the
INSERT fails for a storage reason other than the uniqueness constraint. -/
structure Attempt where
  rand : Option (List Nat)
  dbOtherError : Bool
deriving DecidableEq, Repr

/-- Error body returned when all attempts are exhausted. -/
def genErrorMsg : GoStr := str "\x7b\"error\": \"could not generate link\"\x7d"

/-- How one call of generateShortPath ends.  ok and error are the two
genuine Go returns (shortPath, nil) and ("", error).  fatal is the
random-read failure path: there the source increments the counter and
then calls logrus log.Fatal, which logs and exits the process with
status 1, so the return statement after it is dead code and nothing is
ever returned to the caller. -/
inductive GenOutcome where
  | ok (shortPath : GoStr)
  | error (msg : GoStr)
  | fatal
deriving DecidableEq, Repr

/-- True exactly on the error-return outcome. -/
def GenOutcome.isErr : GenOutcome → Bool
  | .error _ => true
  | _ => false

/-- Result of the generateShortPath loop: the links table and random-error
counter after the call (in-memory values at return or process exit), the
number of INSERT statements executed (ghost instrumentation, not in the
source), and the outcome. -/
structure GenResult where
  links : List Link
  randomErrorCount : Nat
  inserts : Nat
  ret : GenOutcome
deriving Repr

/-- Loop body of generateShortPath over the remaining per-iteration
oracles: a failed rand.Read increments the random-error counter and
then log.Fatal terminates the process, a fatal outcome (the counter
increment precedes the Fatal call, so it is applied to memory before
the exit); otherwise the 6 drawn bytes are base64url encoded into the
candidate short path and an INSERT is attempted, which succeeds only
when the store reports no error (neither a uniqueness violation nor any
other storage error); any failed insert is logged and the loop retries
with the next iteration's fresh candidate. -/
def generateShortPathAux (link ip forwardedFor : GoStr) (ts : Int) :
    List Attempt → List Link → Nat → Nat → GenResult
  | [], links, rec, ic => ⟨links, rec, ic, .error genErrorMsg⟩
  | a :: rest, links, rec, ic =>
    match a.rand with
    | none => ⟨links, rec + 1, ic, .fatal⟩
    | some buf =>
      let sp := base64RawURLEncode buf
      match insertLink links ⟨sp, link, ts, ip, forwardedFor⟩ with
      | some links1 =>
        if a.dbOtherError then
          generateShortPathAux link ip forwardedFor ts rest links rec (ic + 1)
        else
          ⟨links1, rec, ic + 1, .ok sp⟩
      | none =>
        generateShortPathAux link ip forwardedFor ts rest links rec (ic + 1)

/-- Result of one call of generateShortPath: the loop body run for
i := 0; i < 30; i++ against the first 30 iteration oracles, starting
from the smallifier's links table and random-error counter. -/
def generateShortPathRun (s : Smallifier) (env : List Attempt)
    (link ip forwardedFor : GoStr) (ts : Int) : GenResult :=
  generateShortPathAux link ip forwardedFor ts (env.take 30)
    s.links s.randomErrorCount 0

/-- generateShortPath: threads the loop result back into the struct and
exposes the outcome (the Go (string, error) pair when the call returns,
fatal when log.Fatal exited the process). -/
def generateShortPath (s : Smallifier) (env : List Attempt)
    (link ip forwardedFor : GoStr) (ts : Int) :
    Smallifier × GenOutcome :=
  let r := generateShortPathRun s env link ip forwardedFor ts
  ({ s with links := r.links, randomErrorCount := r.randomErrorCount }, r.ret)

/-- Body written for an undecodeable JSON request body. -/
def badJSONMsg : GoStr := str "\x7b\"error\": \"error decoding json\"\x7d"

/-- Body written when the request secret does not match. -/
def badSecretMsg : GoStr := str "\x7b\"error\": \"Must specify correct secret\"\x7d"

/-- Body written when the long_url does not start with https://. -/
def nonHTTPSMsg : GoStr := str "\x7b\"error\": \"Links must start with https://\"\x7d"

/-- Body written when no links row matches the looked-up short path. -/
def notFoundMsg : GoStr := str "\x7b\"error\": \"link not found\"\x7d"

/-- Body written on an unclassified storage error during lookup. -/
def internalErrorMsg : GoStr := str "\x7b\"error\": \"internal server error\"\x7d"

/-- The scheme every shortened link must start with. -/
def httpsScheme : GoStr := str "https://"

/-- json.NewEncoder(w).Encode(Response\x7bshortURL\x7d): the 200 response
body (JSON string escaping inside the URL is not modelled; generated
short URLs contain no characters needing escapes). -/
def encodeResponse (shortURL : GoStr) : GoStr :=
  str "\x7b\"short_url\":\"" ++ shortURL ++ str "\"\x7d\n"

/-- Placeholder for the path on which generateShortPath terminated the
process via log.Fatal: the handler never resumes and no HTTP response
is written.  Totality of the model forces some value here; it is a
sentinel (status 0, the zero value of an unwritten Go status) and no
theorem below depends on this branch. -/
def processExited : HttpResponse := ⟨0, none, []⟩

/-- CreateHandler.  The body argument is the JSON-decoded Request, none
standing for a body json.Decoder.Decode rejects.  env, ts, remoteAddr
and forwardedFor feed generateShortPath.  Returns the smallifier state
after the request and the HTTP response written (or the processExited
sentinel when generateShortPath never returned). -/
def CreateHandler (s : Smallifier) (body : Option Request) (env : List Attempt)
    (ts : Int) (remoteAddr forwardedFor : GoStr) : Smallifier × HttpResponse :=
  match body with
  | none => (s, ⟨400, none, badJSONMsg⟩)
  | some jsonReq =>
    if jsonReq.secret ≠ s.secret then
      ({ s with authErrorCount := s.authErrorCount + 1 }, ⟨401, none, badSecretMsg⟩)
    else if ¬ httpsScheme.isPrefixOf jsonReq.long_url then
      (s, ⟨400, none, nonHTTPSMsg⟩)
    else
      let g := generateShortPath s env jsonReq.long_url remoteAddr forwardedFor ts
      match g.2 with
      | .error e => (g.1, ⟨500, none, e⟩)
      | .ok id => (g.1, ⟨200, none, encodeResponse (s.base.full ++ id)⟩)
      | .fatal => (g.1, processExited)

/-- LookupHandler.  reqPath is req.URL.Path; ts, remoteAddr and
forwardedFor fill the follow event; dbError tells whether the SELECT
fails with an error other than sql.ErrNoRows.  On a successful row scan
the handler sets Location, writes 302, increments pendingFollows and
enqueues a follow event on the channel. -/
def LookupHandler (s : Smallifier) (reqPath : GoStr) (ts : Int)
    (remoteAddr forwardedFor : GoStr) (dbError : Bool) :
    Smallifier × HttpResponse :=
  if ¬ s.base.path.isPrefixOf reqPath then
    (s, ⟨404, none, []⟩)
  else
    let shortPath := reqPath.drop s.base.path.length
    if dbError then
      (s, ⟨500, none, internalErrorMsg⟩)
    else
      match s.links.find? (fun l => l.short_path == shortPath) with
      | some link =>
        ({ s with pendingFollows := s.pendingFollows + 1,
                  follows := s.follows ++ [⟨shortPath, ts, remoteAddr, forwardedFor⟩] },
         ⟨302, some link.long_url, []⟩)
      | none => (s, ⟨404, none, notFoundMsg⟩)

/-- One iteration of the background worker started by New: take the next
follow event off the channel, INSERT it into the follows table (the
insertFails oracle tells whether that INSERT fails; on failure the
db-update-error counter is incremented and the event is dropped), then
decrement pendingFollows.  With an empty channel the worker blocks, so
the state is unchanged. -/
def followWorkerStep (s : Smallifier) (insertFails : Bool) : Smallifier :=
  match s.follows with
  | [] => s
  | f :: rest =>
    { s with
      follows := rest,
      followsTable := if insertFails then s.followsTable else s.followsTable ++ [f],
      dbUpdateErrorCount :=
        if insertFails then s.dbUpdateErrorCount + 1 else s.dbUpdateErrorCount,
      pendingFollows := s.pendingFollows - 1 }

/-- RandomErrors: reads the random-error counter (the float64 conversion
in the source is exact at these magnitudes and is not modelled). -/
def RandomErrors (s : Smallifier) : Nat := s.randomErrorCount

/-- AuthErrors: reads the authorization-error counter. -/
def AuthErrors (s : Smallifier) : Nat := s.authErrorCount

/-- DBUpdateErrors: reads the db-update-error counter. -/
def DBUpdateErrors (s : Smallifier) : Nat := s.dbUpdateErrorCount

/-- New: the smallifier state right after construction, before any
request: empty tables, empty channel, zero counters. -/
def New (base : BaseURL) (secret : GoStr) : Smallifier :=
  { base := base, secret := secret, links := [], followsTable := [],
    follows := [], pendingFollows := 0, randomErrorCount := 0,
    authErrorCount := 0, dbUpdateErrorCount := 0 }

/-- One step of the system: an HTTP create request, an HTTP lookup
request, or one iteration of the follow-recording worker, each with an
arbitrary environment. -/
inductive Step : Smallifier → Smallifier → Prop where
  | create (s : Smallifier) (body : Option Request) (env : List Attempt)
      (ts : Int) (ip fwd : GoStr) :
      Step s (CreateHandler s body env ts ip fwd).1
  | lookup (s : Smallifier) (reqPath : GoStr) (ts : Int) (ip fwd : GoStr)
      (dbError : Bool) :
      Step s (LookupHandler s reqPath ts ip fwd dbError).1
  | worker (s : Smallifier) (insertFails : Bool) :
      Step s (followWorkerStep s insertFails)

/-- States reachable from a freshly constructed smallifier. -/
inductive Reachable : Smallifier → Prop where
  | init (base : BaseURL) (secret : GoStr) : Reachable (New base secret)
  | step (s s1 : Smallifier) : Reachable s → Step s s1 → Reachable s1

/-- Modelled from the spec: the version of CreateHandler that honours the
length limit main.go passes to New is absent from the sources (the
CreateHandler present takes no limit), so the check is reconstructed
from the spec, which orders it after the secret and scheme checks (it
rejects URLs exceeding a configured positive limit with 400; a limit
that is zero or negative means no limit). -/
def CreateHandlerLimited (s : Smallifier) (lengthLimit : Int)
    (body : Option Request) (env : List Attempt)
    (ts : Int) (remoteAddr forwardedFor : GoStr) : Smallifier × HttpResponse :=
  match body with
  | none => (s, ⟨400, none, badJSONMsg⟩)
  | some jsonReq =>
    if jsonReq.secret ≠ s.secret then
      ({ s with authErrorCount := s.authErrorCount + 1 }, ⟨401, none, badSecretMsg⟩)
    else if ¬ httpsScheme.isPrefixOf jsonReq.long_url then
      (s, ⟨400, none, nonHTTPSMsg⟩)
    else if 0 < lengthLimit ∧ lengthLimit < jsonReq.long_url.length then
      (s, ⟨400, none, str "\x7b\"error\": \"Link too long\"\x7d"⟩)
    else
      let g := generateShortPath s env jsonReq.long_url remoteAddr forwardedFor ts
      match g.2 with
      | .error e => (g.1, ⟨500, none, e⟩)
      | .ok id => (g.1, ⟨200, none, encodeResponse (s.base.full ++ id)⟩)
      | .fatal => (g.1, processExited)

/-- Classification of one loop iteration against a links table: the
iteration inserts its row and returns iff the random read succeeds, the
store reports no extraneous error, and the candidate does not collide. -/
def attemptOk (links : List Link) (a : Attempt) : Bool :=
  match a.rand with
  | none => false
  | some buf =>
      !a.dbOtherError &&
        !(links.any (fun x => x.short_path == base64RawURLEncode buf))

/-- Classification of one loop iteration whose random read succeeds but
whose INSERT fails (uniqueness violation or other storage error): the
loop logs and retries. -/
def attemptInsertFails (links : List Link) (a : Attempt) : Bool :=
  match a.rand with
  | none => false
  | some buf =>
      a.dbOtherError ||
        links.any (fun x => x.short_path == base64RawURLEncode buf)

theorem genAux_nil (link ip fwd : GoStr) (ts : Int) (links : List Link)
    (rec ic : Nat) :
    generateShortPathAux link ip fwd ts [] links rec ic
      = ⟨links, rec, ic, .error genErrorMsg⟩ := rfl

theorem genAux_cons_randfail (link ip fwd : GoStr) (ts : Int) (a : Attempt)
    (rest : List Attempt) (links : List Link) (rec ic : Nat)
    (h : a.rand = none) :
    generateShortPathAux link ip fwd ts (a :: rest) links rec ic
      = ⟨links, rec + 1, ic, .fatal⟩ := by
  simp [generateShortPathAux, h]

theorem genAux_cons_fail (link ip fwd : GoStr) (ts : Int) (a : Attempt)
    (rest : List Attempt) (links : List Link) (rec ic : Nat)
    (h : attemptInsertFails links a = true) :
    generateShortPathAux link ip fwd ts (a :: rest) links rec ic
      = generateShortPathAux link ip fwd ts rest links rec (ic + 1) := by
  cases hr : a.rand with
  | none => simp [attemptInsertFails, hr] at h
  | some buf =>
    simp only [attemptInsertFails, hr, Bool.or_eq_true] at h
    rcases h with hdb | hany
    · by_cases hany : links.any (fun x => x.short_path == base64RawURLEncode buf) = true
      · simp [generateShortPathAux, hr, insertLink, hany]
      · simp at hany
        simp only [generateShortPathAux, hr, insertLink, hdb, if_true]
        split <;> rfl
    · simp [generateShortPathAux, hr, insertLink, hany]

theorem genAux_cons_ok (link ip fwd : GoStr) (ts : Int) (a : Attempt)
    (rest : List Attempt) (links : List Link) (rec ic : Nat) (buf : List Nat)
    (hr : a.rand = some buf) (hdb : a.dbOtherError = false)
    (hany : links.any
      (fun x => x.short_path == base64RawURLEncode buf) = false) :
    generateShortPathAux link ip fwd ts (a :: rest) links rec ic
      = ⟨links ++ [⟨base64RawURLEncode buf, link, ts, ip, fwd⟩], rec, ic + 1,
          .ok (base64RawURLEncode buf)⟩ := by
  simp [generateShortPathAux, hr, insertLink, hany, hdb]

theorem attempt_trichotomy (links : List Link) (a : Attempt) :
    a.rand = none ∨ attemptOk links a = true ∨ attemptInsertFails links a = true := by
  cases hr : a.rand with
  | none => exact Or.inl rfl
  | some buf =>
    cases hdb : a.dbOtherError with
    | true => exact Or.inr (Or.inr (by simp [attemptInsertFails, hr, hdb]))
    | false =>
      cases hany : links.any (fun x => x.short_path == base64RawURLEncode buf) with
      | true => exact Or.inr (Or.inr (by simp [attemptInsertFails, hr, hany]))
      | false => exact Or.inr (Or.inl (by simp [attemptOk, hr, hdb, hany]))

theorem attemptOk_elim (links : List Link) (a : Attempt)
    (h : attemptOk links a = true) :
    ∃ buf, a.rand = some buf ∧ a.dbOtherError = false ∧
      links.any (fun x => x.short_path == base64RawURLEncode buf) = false := by
  cases hr : a.rand with
  | none => simp [attemptOk, hr] at h
  | some buf =>
    simp only [attemptOk, hr, Bool.and_eq_true, Bool.not_eq_true'] at h
    exact ⟨buf, rfl, h.1, h.2⟩

theorem attemptInsertFails_rand (links : List Link) (a : Attempt)
    (h : attemptInsertFails links a = true) : a.rand.isSome = true := by
  cases hr : a.rand with
  | none => simp [attemptInsertFails, hr] at h
  | some buf => rfl

theorem attempt_not_both (links : List Link) (a : Attempt)
    (hf : attemptInsertFails links a = true) :
    ¬ attemptOk links a = true := by
  intro ho
  obtain ⟨buf, hr, hdb, hany⟩ := attemptOk_elim links a ho
  simp [attemptInsertFails, hr, hdb, hany] at hf

theorem genAux_ok_shape (link ip fwd : GoStr) (ts : Int) :
    ∀ (as : List Attempt) (links : List Link) (rec ic : Nat) (sp : GoStr),
    (generateShortPathAux link ip fwd ts as links rec ic).ret = .ok sp →
    (generateShortPathAux link ip fwd ts as links rec ic).links
        = links ++ [⟨sp, link, ts, ip, fwd⟩] ∧
    links.any (fun x => x.short_path == sp) = false ∧
    (generateShortPathAux link ip fwd ts as links rec ic).randomErrorCount = rec
  | [], links, rec, ic, sp, h => by
    rw [genAux_nil] at h
    exact absurd h (by simp)
  | a :: rest, links, rec, ic, sp, h => by
    rcases attempt_trichotomy links a with hr | hok | hf
    · rw [genAux_cons_randfail link ip fwd ts a rest links rec ic hr] at h
      exact absurd h (by simp)
    · obtain ⟨buf, hr, hdb, hany⟩ := attemptOk_elim links a hok
      rw [genAux_cons_ok link ip fwd ts a rest links rec ic buf hr hdb hany] at h ⊢
      obtain rfl : base64RawURLEncode buf = sp := by
        simpa using h
      exact ⟨rfl, hany, rfl⟩
    · rw [genAux_cons_fail link ip fwd ts a rest links rec ic hf] at h ⊢
      exact genAux_ok_shape link ip fwd ts rest links rec (ic + 1) sp h

theorem genAux_inserts_le (link ip fwd : GoStr) (ts : Int) :
    ∀ (as : List Attempt) (links : List Link) (rec ic : Nat),
    (generateShortPathAux link ip fwd ts as links rec ic).inserts
      ≤ ic + as.length
  | [], links, rec, ic => by rw [genAux_nil]; simp
  | a :: rest, links, rec, ic => by
    rcases attempt_trichotomy links a with hr | hok | hf
    · rw [genAux_cons_randfail link ip fwd ts a rest links rec ic hr]
      simp
    · obtain ⟨buf, hr, hdb, hany⟩ := attemptOk_elim links a hok
      rw [genAux_cons_ok link ip fwd ts a rest links rec ic buf hr hdb hany]
      simp
    · rw [genAux_cons_fail link ip fwd ts a rest links rec ic hf]
      have := genAux_inserts_le link ip fwd ts rest links rec (ic + 1)
      simpa [Nat.add_assoc, Nat.add_comm 1 rest.length] using this

theorem genAux_pairwise (link ip fwd : GoStr) (ts : Int) :
    ∀ (as : List Attempt) (links : List Link) (rec ic : Nat),
    links.Pairwise (fun x y => x.short_path ≠ y.short_path) →
    ((generateShortPathAux link ip fwd ts as links rec ic).links).Pairwise
      (fun x y => x.short_path ≠ y.short_path)
  | [], links, rec, ic, h => by rw [genAux_nil]; exact h
  | a :: rest, links, rec, ic, h => by
    rcases attempt_trichotomy links a with hr | hok | hf
    · rw [genAux_cons_randfail link ip fwd ts a rest links rec ic hr]
      exact h
    · obtain ⟨buf, hr, hdb, hany⟩ := attemptOk_elim links a hok
      rw [genAux_cons_ok link ip fwd ts a rest links rec ic buf hr hdb hany]
      rw [List.pairwise_append]
      refine ⟨h, by simp, ?_⟩
      intro x hx y hy
      simp only [List.mem_singleton] at hy
      subst hy
      simp only [List.any_eq_false, beq_iff_eq] at hany
      simpa using hany x hx
    · rw [genAux_cons_fail link ip fwd ts a rest links rec ic hf]
      exact genAux_pairwise link ip fwd ts rest links rec (ic + 1) h

theorem genAux_fatal (link ip fwd : GoStr) (ts : Int) :
    ∀ (as : List Attempt) (links : List Link) (rec ic : Nat) (i : Nat)
      (a : Attempt),
    as[i]? = some a → a.rand = none →
    (∀ j, j < i → ∀ b, as[j]? = some b → attemptInsertFails links b = true) →
    (generateShortPathAux link ip fwd ts as links rec ic).links = links ∧
    (generateShortPathAux link ip fwd ts as links rec ic).randomErrorCount
        = rec + 1 ∧
    (generateShortPathAux link ip fwd ts as links rec ic).ret
        = .fatal
  | [], _, _, _, i, a, hi, _, _ => by simp at hi
  | a0 :: rest, links, rec, ic, i, a, hi, hra, hprev => by
    cases i with
    | zero =>
      rw [List.getElem?_cons_zero, Option.some_inj] at hi
      subst hi
      rw [genAux_cons_randfail link ip fwd ts a0 rest links rec ic hra]
      exact ⟨rfl, rfl, rfl⟩
    | succ k =>
      have h0 : attemptInsertFails links a0 = true :=
        hprev 0 (Nat.succ_pos k) a0 List.getElem?_cons_zero
      rw [genAux_cons_fail link ip fwd ts a0 rest links rec ic h0]
      refine genAux_fatal link ip fwd ts rest links rec (ic + 1) k a ?_ hra ?_
      · simpa using hi
      · intro j hj b hb
        exact hprev (j + 1) (Nat.succ_lt_succ hj) b (by simpa using hb)

theorem genAux_ok_iff (link ip fwd : GoStr) (ts : Int) :
    ∀ (as : List Attempt) (links : List Link) (rec ic : Nat),
    (∃ sp, (generateShortPathAux link ip fwd ts as links rec ic).ret = .ok sp)
      ↔
    (∃ (i : Nat) (a : Attempt), as[i]? = some a ∧ attemptOk links a = true ∧
      ∀ (j : Nat), j < i → ∀ (b : Attempt), as[j]? = some b →
        b.rand.isSome = true)
  | [], links, rec, ic => by
    rw [genAux_nil]
    simp
  | a0 :: rest, links, rec, ic => by
    rcases attempt_trichotomy links a0 with hr | hok | hf
    · rw [genAux_cons_randfail link ip fwd ts a0 rest links rec ic hr]
      constructor
      · rintro ⟨sp, h⟩
        simp at h
      · rintro ⟨i, a, hi, hoka, hprev⟩
        exfalso
        cases i with
        | zero =>
          rw [List.getElem?_cons_zero, Option.some_inj] at hi
          subst hi
          simp [attemptOk, hr] at hoka
        | succ k =>
          have := hprev 0 (Nat.succ_pos k) a0 List.getElem?_cons_zero
          simp [hr] at this
    · obtain ⟨buf, hrr, hdb, hany⟩ := attemptOk_elim links a0 hok
      rw [genAux_cons_ok link ip fwd ts a0 rest links rec ic buf hrr hdb hany]
      constructor
      · intro _
        exact ⟨0, a0, List.getElem?_cons_zero, hok,
          fun j hj b _ => absurd hj (Nat.not_lt_zero j)⟩
      · intro _
        exact ⟨base64RawURLEncode buf, rfl⟩
    · rw [genAux_cons_fail link ip fwd ts a0 rest links rec ic hf]
      rw [genAux_ok_iff link ip fwd ts rest links rec (ic + 1)]
      constructor
      · rintro ⟨k, b, h1, h2, h3⟩
        refine ⟨k + 1, b, by simpa using h1, h2, ?_⟩
        intro j hj c hc
        cases j with
        | zero =>
          rw [List.getElem?_cons_zero, Option.some_inj] at hc
          subst hc
          exact attemptInsertFails_rand links a0 hf
        | succ m =>
          exact h3 m (Nat.lt_of_succ_lt_succ hj) c (by simpa using hc)
      · rintro ⟨i, b, h1, h2, h3⟩
        cases i with
        | zero =>
          rw [List.getElem?_cons_zero, Option.some_inj] at h1
          subst h1
          exact absurd h2 (attempt_not_both links a0 hf)
        | succ k =>
          refine ⟨k, b, by simpa using h1, h2, ?_⟩
          intro j hj c hc
          exact h3 (j + 1) (Nat.succ_lt_succ hj) c (by simpa using hc)

theorem isPrefixOf_append_self (p s : GoStr) :
    p.isPrefixOf (p ++ s) = true := by
  induction p with
  | nil => simp
  | cons c p ih => simp [List.isPrefixOf, ih]

theorem find?_eq_none_of_any_eq_false {p : Link → Bool} {l : List Link}
    (h : l.any p = false) : l.find? p = none := by
  rw [List.find?_eq_none]
  intro x hx
  simp only [List.any_eq_false] at h
  simp [h x hx]

theorem generateShortPath_fst (s : Smallifier) (env : List Attempt)
    (link ip fwd : GoStr) (ts : Int) :
    (generateShortPath s env link ip fwd ts).1 =
      { s with
        links := (generateShortPathRun s env link ip fwd ts).links,
        randomErrorCount :=
          (generateShortPathRun s env link ip fwd ts).randomErrorCount } := rfl

theorem CreateHandler_state (s : Smallifier) (body : Option Request)
    (env : List Attempt) (ts : Int) (ip fwd : GoStr) :
    (CreateHandler s body env ts ip fwd).1 = s ∨
    (CreateHandler s body env ts ip fwd).1
      = { s with authErrorCount := s.authErrorCount + 1 } ∨
    ∃ url, (CreateHandler s body env ts ip fwd).1
      = (generateShortPath s env url ip fwd ts).1 := by
  cases body with
  | none => exact Or.inl rfl
  | some req =>
    by_cases hs : req.secret = s.secret
    · by_cases hp : httpsScheme.isPrefixOf req.long_url = true
      · refine Or.inr (Or.inr ⟨req.long_url, ?_⟩)
        simp only [CreateHandler, hs, hp]
        simp only [ne_eq, not_true_eq_false, if_false, Bool.not_true,
          not_false_eq_true, if_true]
        split <;> rfl
      · refine Or.inl ?_
        simp [CreateHandler, hs, hp]
    · refine Or.inr (Or.inl ?_)
      simp [CreateHandler, hs]

theorem LookupHandler_state (s : Smallifier) (reqPath : GoStr) (ts : Int)
    (ip fwd : GoStr) (dbError : Bool) :
    (LookupHandler s reqPath ts ip fwd dbError).1 = s ∨
    ∃ f, (LookupHandler s reqPath ts ip fwd dbError).1
      = { s with pendingFollows := s.pendingFollows + 1,
                 follows := s.follows ++ [f] } := by
  unfold LookupHandler
  by_cases hp : s.base.path.isPrefixOf reqPath = true
  · simp only [hp]
    cases dbError with
    | true => simp
    | false =>
      simp only [Bool.false_eq_true, if_false, not_true_eq_false]
      cases hfind : s.links.find?
          (fun l => l.short_path == reqPath.drop s.base.path.length) with
      | none => simp [hfind]
      | some link =>
        refine Or.inr ⟨⟨reqPath.drop s.base.path.length, ts, ip, fwd⟩, ?_⟩
        simp [hfind]
  · simp [hp]

theorem CreateHandler_queue_unchanged (s : Smallifier) (body : Option Request)
    (env : List Attempt) (ts : Int) (ip fwd : GoStr) :
    ((CreateHandler s body env ts ip fwd).1).follows = s.follows ∧
    ((CreateHandler s body env ts ip fwd).1).pendingFollows
      = s.pendingFollows := by
  rcases CreateHandler_state s body env ts ip fwd with h | h | ⟨url, h⟩ <;>
    rw [h] <;> exact ⟨rfl, rfl⟩

theorem step_preserves_links_unique {s s1 : Smallifier} (hstep : Step s s1)
    (h : s.links.Pairwise (fun x y => x.short_path ≠ y.short_path)) :
    s1.links.Pairwise (fun x y => x.short_path ≠ y.short_path) := by
  cases hstep with
  | create body env ts ip fwd =>
    rcases CreateHandler_state s body env ts ip fwd with hc | hc | ⟨url, hc⟩ <;>
      rw [hc]
    · exact h
    · exact h
    · exact genAux_pairwise url ip fwd ts (env.take 30) s.links
        s.randomErrorCount 0 h
  | lookup reqPath ts ip fwd dbErr =>
    rcases LookupHandler_state s reqPath ts ip fwd dbErr with hc | ⟨f, hc⟩ <;>
      rw [hc] <;> exact h
  | worker insertFails =>
    cases hq : s.follows with
    | nil => simp only [followWorkerStep, hq]; exact h
    | cons f rest => simp only [followWorkerStep, hq]; exact h

theorem step_preserves_pending {s s1 : Smallifier} (hstep : Step s s1)
    (h : s.pendingFollows = (s.follows.length : Int)) :
    s1.pendingFollows = (s1.follows.length : Int) := by
  cases hstep with
  | create body env ts ip fwd =>
    obtain ⟨h1, h2⟩ := CreateHandler_queue_unchanged s body env ts ip fwd
    rw [h1, h2]
    exact h
  | lookup reqPath ts ip fwd dbErr =>
    rcases LookupHandler_state s reqPath ts ip fwd dbErr with hc | ⟨f, hc⟩ <;>
      rw [hc]
    · exact h
    · simp only [List.length_append, List.length_singleton]
      omega
  | worker insertFails =>
    cases hq : s.follows with
    | nil => simp only [followWorkerStep, hq]; rw [h, hq]
    | cons f rest =>
      rw [hq] at h
      simp only [followWorkerStep, hq, List.length_cons] at h ⊢
      omega

/-- Claim C2: in every reachable store state no two links rows share a
short_path; every operation preserves this because insertLink (the model
of the UNIQUE constraint on links.short_path declared by CreateTables)
rejects a duplicate insert instead of applying it, and that is the only
way any operation adds a row to the links table. -/
theorem c2_short_path_unique (s : Smallifier) (h : Reachable s) :
    s.links.Pairwise (fun x y => x.short_path ≠ y.short_path) := by
  induction h with
  | init base secret => simp [New]
  | step s s1 hr hstep ih => exact step_preserves_links_unique hstep ih

/-- Witness for C2: the invariant evaluated from a concrete reachable
state. -/
theorem c2_short_path_unique_witness :
    ((New ⟨[], []⟩ (str "hunter2")).links).Pairwise
      (fun x y => x.short_path ≠ y.short_path) :=
  c2_short_path_unique _ (Reachable.init ⟨[], []⟩ (str "hunter2"))

/-- Claim C10: pendingFollows is incremented exactly once when
LookupHandler enqueues a follow event and decremented exactly once when
the worker finishes processing one, insert failure or not; hence in
every reachable state it equals the number of enqueued-but-unprocessed
events and is zero exactly when the queue has drained. -/
theorem c10_pending_follows (s : Smallifier) (h : Reachable s) :
    s.pendingFollows = (s.follows.length : Int) ∧
    (s.pendingFollows = 0 ↔ s.follows = []) := by
  have hmain : s.pendingFollows = (s.follows.length : Int) := by
    induction h with
    | init base secret => simp [New]
    | step s s1 hr hstep ih => exact step_preserves_pending hstep ih
  refine ⟨hmain, ?_⟩
  rw [hmain]
  constructor
  · intro h0
    have hz : s.follows.length = 0 := by exact_mod_cast h0
    exact List.length_eq_zero.mp hz
  · intro h0
    simp [h0]

/-- Witness for C10: the accounting invariant evaluated from a concrete
reachable state. -/
theorem c10_pending_follows_witness :
    (New ⟨[], []⟩ (str "w")).pendingFollows
      = ((New ⟨[], []⟩ (str "w")).follows.length : Int) :=
  (c10_pending_follows _ (Reachable.init ⟨[], []⟩ (str "w"))).1

theorem genAux_error_iff (link ip fwd : GoStr) (ts : Int) :
    ∀ (as : List Attempt) (links : List Link) (rec ic : Nat),
    (∃ msg, (generateShortPathAux link ip fwd ts as links rec ic).ret
        = .error msg)
      ↔ ∀ a ∈ as, attemptInsertFails links a = true
  | [], links, rec, ic => by
    rw [genAux_nil]
    simp
  | a0 :: rest, links, rec, ic => by
    rcases attempt_trichotomy links a0 with hr | hok | hf
    · rw [genAux_cons_randfail link ip fwd ts a0 rest links rec ic hr]
      constructor
      · rintro ⟨msg, h⟩
        simp at h
      · intro hall
        have h0 := hall a0 (List.mem_cons_self a0 rest)
        simp [attemptInsertFails, hr] at h0
    · obtain ⟨buf, hrr, hdb, hany⟩ := attemptOk_elim links a0 hok
      rw [genAux_cons_ok link ip fwd ts a0 rest links rec ic buf hrr hdb hany]
      constructor
      · rintro ⟨msg, h⟩
        simp at h
      · intro hall
        exact absurd hok
          (attempt_not_both links a0 (hall a0 (List.mem_cons_self a0 rest)))
    · rw [genAux_cons_fail link ip fwd ts a0 rest links rec ic hf]
      rw [genAux_error_iff link ip fwd ts rest links rec (ic + 1)]
      constructor
      · intro hall a ha
        rcases List.mem_cons.mp ha with rfl | ha2
        · exact hf
        · exact hall a ha2
      · intro hall a ha
        exact hall a (List.mem_cons_of_mem a0 ha)

/-- Counterexample for C3 as stated: at a concrete input whose first
random read fails, generateShortPath does not return an error at all:
the outcome is process termination by logrus log.Fatal, refuting the
claim's "returns an error ... if ... the random source fails". -/
theorem c3_bounded_retry_counterexample :
    (generateShortPath (New ⟨[], []⟩ (str "c3x")) [⟨none, false⟩]
        (str "https://lemurs.win") (str "ip") [] 0).2 = GenOutcome.fatal ∧
    ((generateShortPath (New ⟨[], []⟩ (str "c3x")) [⟨none, false⟩]
        (str "https://lemurs.win") (str "ip") [] 0).2).isErr = false := by
  decide

/-- Claim C3 (amended): generateShortPath executes at most 30 INSERT
attempts; every failed insert, uniqueness violation or any other
storage error alike, is retried with a fresh random candidate; it
returns a short path exactly when one of the 30 iterations it runs has
a successful random read and an accepted insert with no random-read
failure at any earlier iteration; and it returns an error exactly when
every iteration is a failed insert, that is, when all 30 attempts
fail.  A random-source failure produces no error return: the process
is terminated by log.Fatal and nothing is returned. -/
theorem c3_bounded_retry (s : Smallifier) (env : List Attempt)
    (link ip fwd : GoStr) (ts : Int) :
    (generateShortPathRun s env link ip fwd ts).inserts ≤ 30 ∧
    ((∃ sp, (generateShortPath s env link ip fwd ts).2 = .ok sp) ↔
      (∃ (i : Nat) (a : Attempt), (env.take 30)[i]? = some a ∧
        attemptOk s.links a = true ∧
        ∀ (j : Nat), j < i → ∀ (b : Attempt), (env.take 30)[j]? = some b →
          b.rand.isSome = true)) ∧
    ((∃ msg, (generateShortPath s env link ip fwd ts).2 = .error msg) ↔
      ∀ a ∈ env.take 30, attemptInsertFails s.links a = true) := by
  refine ⟨?_, ?_, ?_⟩
  · have h1 := genAux_inserts_le link ip fwd ts (env.take 30) s.links
      s.randomErrorCount 0
    have h2 : (env.take 30).length ≤ 30 := by
      simp
    unfold generateShortPathRun
    omega
  · exact genAux_ok_iff link ip fwd ts (env.take 30) s.links
      s.randomErrorCount 0
  · exact genAux_error_iff link ip fwd ts (env.take 30) s.links
      s.randomErrorCount 0

/-- Witness for C3: the success characterisation applied at a concrete
environment whose single oracle entry draws six zero bytes against an
empty store. -/
theorem c3_bounded_retry_witness :
    ∃ sp, (generateShortPath (New ⟨[], []⟩ (str "s3"))
      [⟨some [0, 0, 0, 0, 0, 0], false⟩]
      (str "https://lemurs.win") (str "1.2.3.4") [] 7).2 = .ok sp :=
  (c3_bounded_retry (New ⟨[], []⟩ (str "s3"))
      [⟨some [0, 0, 0, 0, 0, 0], false⟩]
      (str "https://lemurs.win") (str "1.2.3.4") [] 7).2.1.mpr
    ⟨0, ⟨some [0, 0, 0, 0, 0, 0], false⟩, by simp, by decide,
      fun j hj b _ => absurd hj (Nat.not_lt_zero j)⟩

/-- Claim C4 (code bug exhibited): at the failing input, a create whose
first crypto/rand read fails, the code increments the counter read
through RandomErrors by exactly one and inserts no links row, but the
outcome is process termination: logrus log.Fatal exits before the
source's return statement, so no generation error is ever returned to
the caller.  This contradicts the claim, the source's own (dead) return
statement and the RandomErrors documentation, which all expect the
error returned with the process alive to serve the metric. -/
theorem c4_random_failure_bug :
    RandomErrors (generateShortPath (New ⟨[], []⟩ (str "s4"))
        [⟨none, false⟩] (str "https://lemurs.win") (str "ip") [] 3).1
      = RandomErrors (New ⟨[], []⟩ (str "s4")) + 1 ∧
    ((generateShortPath (New ⟨[], []⟩ (str "s4"))
        [⟨none, false⟩] (str "https://lemurs.win") (str "ip") [] 3).1).links
      = (New ⟨[], []⟩ (str "s4")).links ∧
    (generateShortPath (New ⟨[], []⟩ (str "s4"))
        [⟨none, false⟩] (str "https://lemurs.win") (str "ip") [] 3).2
      = GenOutcome.fatal ∧
    ((generateShortPath (New ⟨[], []⟩ (str "s4"))
        [⟨none, false⟩] (str "https://lemurs.win") (str "ip") [] 3).2).isErr
      = false := by
  decide

/-- Claim C7: a decodeable create request whose secret differs from the
configured one gets status 401, bumps the authorization-error counter
read through AuthErrors by exactly one, and inserts no links row. -/
theorem c7_auth_failure (s : Smallifier) (req : Request) (env : List Attempt)
    (ts : Int) (ip fwd : GoStr) (h : req.secret ≠ s.secret) :
    (CreateHandler s (some req) env ts ip fwd).2.status = 401 ∧
    AuthErrors (CreateHandler s (some req) env ts ip fwd).1
      = AuthErrors s + 1 ∧
    ((CreateHandler s (some req) env ts ip fwd).1).links = s.links := by
  simp [CreateHandler, h, AuthErrors]

/-- Witness for C7: a concrete request carrying the wrong secret. -/
theorem c7_auth_failure_witness :
    (CreateHandler (New ⟨[], []⟩ (str "sec"))
      (some ⟨str "https://lemurs.win", str "bad"⟩) [] 0 (str "ip") []).2.status
      = 401 :=
  (c7_auth_failure (New ⟨[], []⟩ (str "sec"))
    ⟨str "https://lemurs.win", str "bad"⟩ [] 0 (str "ip") [] (by decide)).1

/-- Claim C8: a decodeable create request with the correct secret whose
long_url does not start with https:// gets status 400 and leaves the
whole state untouched: no row inserted, no counter changed. -/
theorem c8_scheme_rejection (s : Smallifier) (req : Request)
    (env : List Attempt) (ts : Int) (ip fwd : GoStr)
    (hsec : req.secret = s.secret)
    (hns : httpsScheme.isPrefixOf req.long_url = false) :
    (CreateHandler s (some req) env ts ip fwd).2.status = 400 ∧
    (CreateHandler s (some req) env ts ip fwd).1 = s := by
  simp [CreateHandler, hsec, hns]

/-- Witness for C8: a concrete http (not https) request with the right
secret. -/
theorem c8_scheme_rejection_witness :
    (CreateHandler (New ⟨[], []⟩ (str "sec"))
      (some ⟨str "http://lemurs.win", str "sec"⟩) [] 0 (str "ip") []).1
      = New ⟨[], []⟩ (str "sec") :=
  (c8_scheme_rejection (New ⟨[], []⟩ (str "sec"))
    ⟨str "http://lemurs.win", str "sec"⟩ [] 0 (str "ip") [] rfl (by decide)).2

/-- Claim C9: one worker iteration on a queued follow event: if the
INSERT fails, the db-update-error counter read through DBUpdateErrors
grows by exactly one and the event is dropped (the follows table is
unchanged and the event leaves the queue, never to be retried); if it
succeeds, no counter changes and the row is appended.  The response to
the lookup that enqueued the event was produced before the event was
queued, so the worker touches no response either way. -/
theorem c9_follow_best_effort (s : Smallifier) (f : Follow)
    (rest : List Follow) (hq : s.follows = f :: rest) (insertFails : Bool) :
    (insertFails = true →
      DBUpdateErrors (followWorkerStep s insertFails) = DBUpdateErrors s + 1 ∧
      (followWorkerStep s insertFails).followsTable = s.followsTable ∧
      (followWorkerStep s insertFails).follows = rest) ∧
    (insertFails = false →
      DBUpdateErrors (followWorkerStep s insertFails) = DBUpdateErrors s ∧
      RandomErrors (followWorkerStep s insertFails) = RandomErrors s ∧
      AuthErrors (followWorkerStep s insertFails) = AuthErrors s ∧
      (followWorkerStep s insertFails).followsTable
        = s.followsTable ++ [f] ∧
      (followWorkerStep s insertFails).follows = rest) := by
  cases insertFails <;>
    simp [followWorkerStep, hq, DBUpdateErrors, RandomErrors, AuthErrors]

/-- Witness for C9: the failing-insert iteration on a concrete
one-event queue. -/
theorem c9_follow_best_effort_witness :
    DBUpdateErrors (followWorkerStep
        { New ⟨[], []⟩ (str "s9") with
            follows := [⟨str "abcdefgh", 5, str "ip", []⟩],
            pendingFollows := 1 } true)
      = DBUpdateErrors
        { New ⟨[], []⟩ (str "s9") with
            follows := [⟨str "abcdefgh", 5, str "ip", []⟩],
            pendingFollows := 1 } + 1 :=
  ((c9_follow_best_effort
      { New ⟨[], []⟩ (str "s9") with
          follows := [⟨str "abcdefgh", 5, str "ip", []⟩],
          pendingFollows := 1 }
      ⟨str "abcdefgh", 5, str "ip", []⟩ [] rfl true).1 rfl).1

theorem ne_append_singleton (l : List Follow) (f : Follow) :
    ¬ l = l ++ [f] := by
  intro h
  have hlen := congrArg List.length h
  simp at hlen

/-- Claim C6: a lookup enqueues a follow event exactly when the stored
link query succeeds, and then answers 302 with Location set to the
stored long URL; when no row matches the short path it answers 404 with
the error body and changes nothing, enqueuing no follow event. -/
theorem c6_lookup_behaviour (s : Smallifier) (reqPath : GoStr) (ts : Int)
    (ip fwd : GoStr) (dbErr : Bool) :
    ((∃ f, ((LookupHandler s reqPath ts ip fwd dbErr).1).follows
        = s.follows ++ [f]) ↔
      (s.base.path.isPrefixOf reqPath = true ∧ dbErr = false ∧
        (s.links.find? (fun l =>
          l.short_path == reqPath.drop s.base.path.length)).isSome = true)) ∧
    (∀ link, s.base.path.isPrefixOf reqPath = true → dbErr = false →
      s.links.find? (fun l => l.short_path == reqPath.drop s.base.path.length)
          = some link →
      (LookupHandler s reqPath ts ip fwd dbErr).2.status = 302 ∧
      (LookupHandler s reqPath ts ip fwd dbErr).2.location
          = some link.long_url ∧
      ((LookupHandler s reqPath ts ip fwd dbErr).1).follows
        = s.follows ++ [⟨reqPath.drop s.base.path.length, ts, ip, fwd⟩]) ∧
    (s.base.path.isPrefixOf reqPath = true → dbErr = false →
      s.links.find? (fun l => l.short_path == reqPath.drop s.base.path.length)
          = none →
      (LookupHandler s reqPath ts ip fwd dbErr).2.status = 404 ∧
      (LookupHandler s reqPath ts ip fwd dbErr).2.body = notFoundMsg ∧
      (LookupHandler s reqPath ts ip fwd dbErr).1 = s) := by
  by_cases hp : s.base.path.isPrefixOf reqPath = true
  · cases dbErr with
    | true =>
      have hL : LookupHandler s reqPath ts ip fwd true
          = (s, ⟨500, none, internalErrorMsg⟩) := by
        simp [LookupHandler, hp]
      rw [hL]
      refine ⟨?_, ?_, ?_⟩
      · simp only [iff_iff_implies_and_implies]
        constructor
        · rintro ⟨f, hf⟩
          exact absurd hf (ne_append_singleton s.follows f)
        · rintro ⟨_, hdb, _⟩
          simp at hdb
      · intro link _ hdb _
        simp at hdb
      · intro _ hdb _
        simp at hdb
    | false =>
      cases hfind : s.links.find?
          (fun l => l.short_path == reqPath.drop s.base.path.length) with
      | some link0 =>
        have hL : LookupHandler s reqPath ts ip fwd false
            = ({ s with
                  pendingFollows := s.pendingFollows + 1,
                  follows := s.follows
                    ++ [⟨reqPath.drop s.base.path.length, ts, ip, fwd⟩] },
               ⟨302, some link0.long_url, []⟩) := by
          simp [LookupHandler, hp, hfind]
        rw [hL]
        refine ⟨?_, ?_, ?_⟩
        · constructor
          · intro _
            exact ⟨hp, rfl, by simp [hfind]⟩
          · intro _
            exact ⟨⟨reqPath.drop s.base.path.length, ts, ip, fwd⟩, rfl⟩
        · intro link _ _ hfind2
          rw [Option.some_inj] at hfind2
          subst hfind2
          exact ⟨rfl, rfl, rfl⟩
        · intro _ _ hfind2
          simp at hfind2
      | none =>
        have hL : LookupHandler s reqPath ts ip fwd false
            = (s, ⟨404, none, notFoundMsg⟩) := by
          simp [LookupHandler, hp, hfind]
        rw [hL]
        refine ⟨?_, ?_, ?_⟩
        · simp only [iff_iff_implies_and_implies]
          constructor
          · rintro ⟨f, hf⟩
            exact absurd hf (ne_append_singleton s.follows f)
          · rintro ⟨_, _, hsome⟩
            simp at hsome
        · intro link _ _ hfind2
          simp at hfind2
        · intro _ _ _
          exact ⟨rfl, rfl, rfl⟩
  · have hL : LookupHandler s reqPath ts ip fwd dbErr
        = (s, ⟨404, none, []⟩) := by
      simp [LookupHandler, hp]
    rw [hL]
    refine ⟨?_, ?_, ?_⟩
    · simp only [iff_iff_implies_and_implies]
      constructor
      · rintro ⟨f, hf⟩
        exact absurd hf (ne_append_singleton s.follows f)
      · rintro ⟨hp2, _, _⟩
        exact absurd hp2 hp
    · intro link hp2 _ _
      exact absurd hp2 hp
    · intro hp2 _ _
      exact absurd hp2 hp

/-- Witness for C6: a successful lookup against a concrete one-row
store. -/
theorem c6_lookup_behaviour_witness :
    (LookupHandler
        { New ⟨str "/", str "https://sm.al/"⟩ (str "s6") with
            links := [⟨str "abcdefgh", str "https://lemurs.win", 0,
              str "ip", []⟩] }
        (str "/abcdefgh") 1 (str "ip2") [] false).2.status = 302 :=
  ((c6_lookup_behaviour
      { New ⟨str "/", str "https://sm.al/"⟩ (str "s6") with
          links := [⟨str "abcdefgh", str "https://lemurs.win", 0,
            str "ip", []⟩] }
      (str "/abcdefgh") 1 (str "ip2") [] false).2.1
    ⟨str "abcdefgh", str "https://lemurs.win", 0, str "ip", []⟩
    (by decide) rfl (by decide)).1

/-- Claim C1: for a create request that succeeds (decodeable body,
correct secret, https-prefixed long_url, insert accepted so that
generateShortPath returns a short path id), the creation responds 200
and an error-free lookup of that short path under the configured base
path answers 302 with Location exactly the submitted long_url. -/
theorem c1_roundtrip (s : Smallifier) (req : Request) (env : List Attempt)
    (ts ts2 : Int) (ip fwd ip2 fwd2 : GoStr) (id : GoStr)
    (hsec : req.secret = s.secret)
    (hhttps : httpsScheme.isPrefixOf req.long_url = true)
    (hok : (generateShortPath s env req.long_url ip fwd ts).2 = .ok id) :
    (CreateHandler s (some req) env ts ip fwd).2.status = 200 ∧
    (LookupHandler (CreateHandler s (some req) env ts ip fwd).1
        (s.base.path ++ id) ts2 ip2 fwd2 false).2.status = 302 ∧
    (LookupHandler (CreateHandler s (some req) env ts ip fwd).1
        (s.base.path ++ id) ts2 ip2 fwd2 false).2.location
      = some req.long_url := by
  have hC : CreateHandler s (some req) env ts ip fwd
      = ((generateShortPath s env req.long_url ip fwd ts).1,
         ⟨200, none, encodeResponse (s.base.full ++ id)⟩) := by
    simp [CreateHandler, hsec, hhttps, hok]
  have hret : (generateShortPathRun s env req.long_url ip fwd ts).ret
      = .ok id := hok
  obtain ⟨hlinks, hany, -⟩ := genAux_ok_shape req.long_url ip fwd ts
    (env.take 30) s.links s.randomErrorCount 0 id hret
  have hs1links : ((generateShortPath s env req.long_url ip fwd ts).1).links
      = s.links ++ [⟨id, req.long_url, ts, ip, fwd⟩] := hlinks
  have hs1base : ((generateShortPath s env req.long_url ip fwd ts).1).base
      = s.base := rfl
  have hpre : (((generateShortPath s env req.long_url ip fwd
      ts).1).base.path).isPrefixOf (s.base.path ++ id) = true := by
    rw [hs1base]
    exact isPrefixOf_append_self s.base.path id
  have hdrop : (s.base.path ++ id).drop
      (((generateShortPath s env req.long_url ip fwd
        ts).1).base.path).length = id := by
    rw [hs1base]
    exact List.drop_left s.base.path id
  have hfind : ((generateShortPath s env req.long_url ip fwd ts).1).links.find?
      (fun l => l.short_path == (s.base.path ++ id).drop
        (((generateShortPath s env req.long_url ip fwd
          ts).1).base.path).length)
      = some ⟨id, req.long_url, ts, ip, fwd⟩ := by
    rw [hdrop, hs1links, List.find?_append,
      find?_eq_none_of_any_eq_false hany]
    simp [List.find?]
  have hL2 : (LookupHandler (generateShortPath s env req.long_url ip fwd
      ts).1 (s.base.path ++ id) ts2 ip2 fwd2 false).2
      = ⟨302, some req.long_url, []⟩ := by
    simp [LookupHandler, hpre, hfind]
  rw [hC]
  exact ⟨rfl, by rw [hL2], by rw [hL2]⟩

/-- Witness for C1: a concrete create of https://lemurs.win against a
fresh store, followed by a lookup of the returned short path. -/
theorem c1_roundtrip_witness :
    (LookupHandler
        (CreateHandler (New ⟨str "/", str "https://sm.al/"⟩ (str "sec1"))
          (some ⟨str "https://lemurs.win", str "sec1"⟩)
          [⟨some [0, 0, 0, 0, 0, 0], false⟩] 11 (str "ip") []).1
        (str "/" ++ str "AAAAAAAA") 12 (str "ip2") [] false).2.location
      = some (str "https://lemurs.win") :=
  (c1_roundtrip (New ⟨str "/", str "https://sm.al/"⟩ (str "sec1"))
      ⟨str "https://lemurs.win", str "sec1"⟩
      [⟨some [0, 0, 0, 0, 0, 0], false⟩] 11 12 (str "ip") [] (str "ip2") []
      (str "AAAAAAAA") rfl (by decide) (by rfl)).2.2

/-- Counterexample for C5 as stated: a create request whose long_url
exceeds the positive configured limit but whose secret is wrong gets
status 401, not the 400 the claim promises for every such request. -/
theorem c5_length_limit_counterexample :
    (CreateHandlerLimited (New ⟨[], []⟩ (str "sec")) 1
        (some ⟨str "https://lemurs.win", str "bad"⟩) [] 0 (str "ip")
        []).2.status = 401 ∧
    ¬ (CreateHandlerLimited (New ⟨[], []⟩ (str "sec")) 1
        (some ⟨str "https://lemurs.win", str "bad"⟩) [] 0 (str "ip")
        []).2.status = 400 := by
  decide

/-- Claim C5 (amended): for a decodeable create request with the correct
secret, a long_url longer than the positive configured limit gets
status 400; and with a non-positive limit the handler behaves exactly
like the limitless CreateHandler, so no request is ever rejected for
its length. -/
theorem c5_length_limit (s : Smallifier) (lengthLimit : Int)
    (req : Request) (env : List Attempt) (ts : Int) (ip fwd : GoStr) :
    (req.secret = s.secret → 0 < lengthLimit →
      lengthLimit < (req.long_url.length : Int) →
      (CreateHandlerLimited s lengthLimit (some req) env ts ip fwd).2.status
        = 400) ∧
    (lengthLimit ≤ 0 → ∀ body,
      CreateHandlerLimited s lengthLimit body env ts ip fwd
        = CreateHandler s body env ts ip fwd) := by
  constructor
  · intro hsec hpos hlen
    by_cases hp : httpsScheme.isPrefixOf req.long_url = true
    · simp [CreateHandlerLimited, hsec, hp, hpos, hlen]
    · simp [CreateHandlerLimited, hsec, hp]
  · intro hneg body
    cases body with
    | none => rfl
    | some req2 =>
      by_cases hs2 : req2.secret = s.secret
      · by_cases hp2 : httpsScheme.isPrefixOf req2.long_url = true
        · have hcond : ¬ (0 < lengthLimit ∧
              lengthLimit < (req2.long_url.length : Int)) := by
            rintro ⟨h1, -⟩
            omega
          simp [CreateHandlerLimited, CreateHandler, hs2, hp2, hcond]
        · simp [CreateHandlerLimited, CreateHandler, hs2, hp2]
      · simp [CreateHandlerLimited, CreateHandler, hs2]

/-- Witness for C5: a concrete correct-secret request longer than the
configured limit of 1. -/
theorem c5_length_limit_witness :
    (CreateHandlerLimited (New ⟨[], []⟩ (str "sec")) 1
        (some ⟨str "https://lemurs.win", str "sec"⟩) [] 0 (str "ip")
        []).2.status = 400 :=
  (c5_length_limit (New ⟨[], []⟩ (str "sec")) 1
      ⟨str "https://lemurs.win", str "sec"⟩ [] 0 (str "ip") []).1
    rfl (by decide) (by decide)
